import Mathlib

/-!
Verification of the solana-geyser framed TCP fan-out pipeline.

Shallow embedding of the publish pipeline of the repository:
bytes are natural numbers below 256, byte strings are `List Nat`,
machine integers are `Nat` with explicit `% 2^32` where the Rust code
casts with `as u32`.

Embedded source functions (names follow the source):
* `TcpBuffer.append`, `TcpBuffer.flush_data`  — src/utils/src/sender.rs
  (identical in src/src/sender.rs)
* `read_records`, `read_response` — src/src/receiver.rs
* `publish_batch` outcome classification — both sender variants
* `publish` / `publishLoop` — both sender variants, as an action trace
* the slot cache of the scaffold plugin hook and both `update_slot_status`
  variants — geyser_plugin_hook.rs
* the error translator `with_inner` — scaffold geyser_plugin_hook.rs
-/

namespace Geyser

/-- Little-endian 4-byte encoding of `n`, mirroring
`(n as u32).to_le_bytes()`: the emitted bytes depend only on `n % 2^32`. -/
def u32le (n : Nat) : List Nat :=
  [n % 256, n / 256 % 256, n / 65536 % 256, n / 16777216 % 256]

/-- Model of `u32::from_le_bytes` on the first four bytes of `l`, mirroring the
receiver's `u32::from_le_bytes(size_bytes)`. -/
def leU32 (l : List Nat) : Nat :=
  (l.take 4).foldr (fun b acc => b + 256 * acc) 0

/-- A framed record: `u32_le(len(msg)) ‖ msg`, as built inside
`TcpBuffer::append` (`result` in the source). -/
def frame (msg : List Nat) : List Nat :=
  u32le msg.length ++ msg

/-- The staging buffer of the sender: an ordered sequence of already-framed
records plus the running byte counter (src/utils/src/sender.rs, lines 18-21). -/
structure TcpBuffer where
  data : List (List Nat)
  total_bytesize : Nat
  deriving Repr, DecidableEq

/-- Model of `TcpBuffer::append` (src/utils/src/sender.rs lines 24-31): frame the
message, add the framed length to `total_bytesize`, push the framed record. -/
def TcpBuffer.append (b : TcpBuffer) (msg : List Nat) : TcpBuffer :=
  { data := b.data ++ [frame msg]
    total_bytesize := b.total_bytesize + (frame msg).length }

/-- Model of `TcpBuffer::flush_data` (src/utils/src/sender.rs lines 33-45): emit
`u32_le(total_bytesize) ‖ concat(framed records)` and clear the buffer.
Returns the batch together with the cleared buffer state. -/
def TcpBuffer.flush_data (b : TcpBuffer) : List Nat × TcpBuffer :=
  (u32le b.total_bytesize ++ b.data.flatten,
   { data := [], total_bytesize := 0 })

/-- The buffer invariant claimed by the spec:
`total_bytesize == Σ len(framed_record_i)`. -/
def TcpBuffer.inv (b : TcpBuffer) : Prop :=
  b.total_bytesize = (b.data.map List.length).sum

instance (b : TcpBuffer) : Decidable b.inv := by
  unfold TcpBuffer.inv; infer_instance

/-- The record-iteration loop of `TcpReceiver::read_response`
(src/src/receiver.rs lines 89-106) on the batch body, expressed on the
suffix of the body not yet consumed.  The Rust loop keeps an index `i`;
the suffix view is `body.drop i`.  `none` models the two positions where
the Rust slice `body[i..end]` would panic (`end > body.len()`), the
claim's out-of-bounds branch; `some rs` returns the record bodies handed
to the callback, in order. -/
def read_records (body : List Nat) : Option (List (List Nat)) :=
  if _h0 : body = [] then
    some []
  else if _h4 : 4 ≤ body.length then
    let size := leU32 (body.take 4)
    let rest := body.drop 4
    if size ≤ rest.length then
      (read_records (rest.drop size)).map (fun rs => rest.take size :: rs)
    else
      none
  else
    none
  termination_by body.length
  decreasing_by
    simp only [List.length_drop]
    omega

/-- Model of `TcpReceiver::read_response` (src/src/receiver.rs lines 74-109): read a
4-byte header, decode the body length, read exactly that many body bytes
(`none` when the stream holds fewer — `read_exact` fails), then run the
record loop on the body. -/
def read_response (stream : List Nat) : Option (List (List Nat)) :=
  if 4 ≤ stream.length then
    let total := leU32 (stream.take 4)
    if total ≤ (stream.drop 4).length then
      read_records ((stream.drop 4).take total)
    else
      none
  else
    none

/-- Well-formed batch body, following C10's precondition position by
position: at each parse position at least 4 bytes remain for the length
field and the declared record length does not exceed the bytes remaining
after it. -/
inductive WFBody : List Nat → Prop
  | nil : WFBody []
  | cons (body : List Nat) (h4 : 4 ≤ body.length)
      (hs : leU32 (body.take 4) ≤ (body.drop 4).length)
      (htail : WFBody ((body.drop 4).drop (leU32 (body.take 4)))) :
      WFBody body

/-- Total framed size of a record list: `Σ (4 + len rᵢ)`. -/
def framedSize (rs : List (List Nat)) : Nat :=
  (rs.map (fun r => 4 + r.length)).sum

/-- The error taxonomy of the core, from the scaffold's
`utils::errors::GeyserError` as matched exhaustively in `with_inner`
(scaffold geyser_plugin_hook.rs lines 295-326); counts are `Nat` for the
source's `u64`. -/
inductive GeyserError
  | tcpSend (n : Nat)
  | tcpDisconnects (n : Nat)
  | txSerializeError
  | senderLockError
  | connLockError
  | cacheLockError
  deriving Repr, DecidableEq

/-- Outcome of one `conn.try_send(batch.clone())` on a subscriber queue
(`TrySendError::Full` / any other error = disconnect / success). -/
inductive TrySendRes
  | ok
  | full
  | disconnected
  deriving Repr, DecidableEq

/-- Model of `TcpSender::publish_batch` outcome classification
(src/utils/src/sender.rs lines 125-160, identically in
src/src/sender.rs lines 120-168): iterate the subscriber queues counting
`send_errs` (Full) and `disconnects` (other errors); return
`TcpSend(send_errs)` if any Full, else `TcpDisconnects(disconnects)` if
any disconnect, else Ok.  The queue outcomes are taken as input, one per
subscriber in iteration order. -/
def publish_batch (results : List TrySendRes) : Except GeyserError Unit :=
  let send_errs := (results.filter (fun r => r = TrySendRes.full)).length
  let disconnects := (results.filter (fun r => r = TrySendRes.disconnected)).length
  if 0 < send_errs then
    Except.error (GeyserError.tcpSend send_errs)
  else if 0 < disconnects then
    Except.error (GeyserError.tcpDisconnects disconnects)
  else
    Except.ok ()

/-- Observable actions of one `publish` call: each `publish_batch`
broadcast attempt with the batch bytes it sends, and each
`thread::sleep(Duration::from_secs(n))`. -/
inductive SendAction
  | broadcast (batch : List Nat)
  | sleepSec (n : Nat)
  deriving Repr, DecidableEq

/-- The retry loop inside `TcpSender::publish`.  Each iteration evaluates
`self.publish_batch(buffer.flush_data())` — `flush_data` runs again on
every attempt (src/utils/src/sender.rs line 83, src/src/sender.rs
line 79), so the buffer is threaded through the loop and every retry
after the first attempt drains the already-empty buffer.
`withSleep = true` is the src/utils/src/sender.rs variant (lines 82-95:
1-second sleep before each strict-mode retry); `withSleep = false` is the
src/src/sender.rs variant (lines 78-90: bare `continue`).  `outcome k`
is the result of the k-th `publish_batch` attempt (`none` = success);
`fuel` bounds the number of attempts modelled, `none` in the last
component meaning the loop had not yet terminated within `fuel`
attempts. -/
def publishLoop (strict withSleep : Bool) (outcome : Nat → Option GeyserError) :
    TcpBuffer → Nat → Nat →
      TcpBuffer × List SendAction × Option (Except GeyserError Unit)
  | buf, _, 0 => (buf, [], none)
  | buf, k, fuel + 1 =>
    let fd := buf.flush_data
    match outcome k with
    | none => (fd.2, [SendAction.broadcast fd.1], some (Except.ok ()))
    | some e =>
      if strict then
        let rest := publishLoop strict withSleep outcome fd.2 (k + 1) fuel
        (rest.1,
          SendAction.broadcast fd.1 ::
            ((if withSleep then [SendAction.sleepSec 1] else []) ++ rest.2.1),
          rest.2.2)
      else
        (fd.2, [SendAction.broadcast fd.1], some (Except.error e))

/-- Model of `TcpSender::publish` (src/utils/src/sender.rs lines 70-98 and
src/src/sender.rs lines 66-93): append the framed message to the shared
buffer; if the updated `total_bytesize` is below `batch_max_bytes` return
Ok with the buffer intact; otherwise enter the broadcast/retry loop,
which drains the buffer with `flush_data` on every attempt. -/
def publish (batch_max_bytes : Nat) (strict withSleep : Bool)
    (outcome : Nat → Option GeyserError) (buffer : TcpBuffer)
    (message : List Nat) (fuel : Nat) :
    TcpBuffer × List SendAction × Option (Except GeyserError Unit) :=
  let buf := buffer.append message
  if buf.total_bytesize < batch_max_bytes then
    (buf, [], some (Except.ok ()))
  else
    publishLoop strict withSleep outcome buf 0 fuel

/-- Expected tail of a strict-delivery retry trace after the first failed
broadcast: each of the `k` remaining attempts (preceded by a 1-second
sleep in the utils variant) re-flushes the drained buffer and broadcasts
the resulting empty batch; the last listed broadcast succeeds. -/
def retryTail (withSleep : Bool) (emptyBatch : List Nat) : Nat → List SendAction
  | 0 => []
  | k + 1 => (if withSleep then [SendAction.sleepSec 1] else []) ++
      (SendAction.broadcast emptyBatch :: retryTail withSleep emptyBatch k)

/-- Model of `HashKey` (scaffold geyser_plugin_hook.rs lines 37-42), the per-slot
entity key: account pubkey / transaction signature / block metadata.
Pubkeys and signatures are abstracted to naturals. -/
inductive HashKey
  | account (pubkey : Nat)
  | tx (signature : Nat)
  | blockMetadata
  deriving Repr, DecidableEq

/-- Model of `SlotStatus` of the geyser interface as used by both
`update_slot_status` variants. -/
inductive SlotStatus
  | processed
  | rooted
  | confirmed
  deriving Repr, DecidableEq

/-- A slot bucket: the `HashMap<HashKey, Vec<u8>>` behind one cache slot,
as an ordered association list with HashMap insert semantics. -/
abbrev Bucket : Type := List (HashKey × List Nat)

/-- Model of `HashMap::insert` on a bucket: overwrite the entry for `k` when
present, otherwise add a new entry. -/
def bucketInsert : Bucket → HashKey → List Nat → Bucket
  | [], k, v => [(k, v)]
  | e :: tl, k, v =>
    if e.1 = k then (k, v) :: tl else e :: bucketInsert tl k v

/-- The scaffold's `Cache<u64, CacheEntry>` (mini-moka), as an ordered
association list from slot to bucket; TTL eviction is wall-clock
behaviour and is not modelled. -/
abbrev SlotCache : Type := List (Nat × Bucket)

/-- Model of `cache.get(&slot)`. -/
def cacheGet (c : SlotCache) (s : Nat) : Option Bucket :=
  (c.find? (fun e => e.1 = s)).map (fun e => e.2)

/-- Model of `cache.insert(slot, slot_data)`: overwrite or add. -/
def cacheInsert : SlotCache → Nat → Bucket → SlotCache
  | [], s, b => [(s, b)]
  | e :: tl, s, b =>
    if e.1 = s then (s, b) :: tl else e :: cacheInsert tl s b

/-- Model of `cache.invalidate(&slot)`. -/
def cacheInvalidate (c : SlotCache) (s : Nat) : SlotCache :=
  c.filter (fun e => ¬ e.1 = s)

/-- The cache path shared by `update_account`, `notify_transaction` and
`notify_block_metadata` in the scaffold hook (e.g. lines 136-146): fetch
the slot's bucket (empty when absent), insert `key ↦ bytes` under the
bucket lock, store the bucket back. -/
def put (c : SlotCache) (slot : Nat) (key : HashKey) (bytes : List Nat) :
    SlotCache :=
  cacheInsert c slot (bucketInsert ((cacheGet c slot).getD []) key bytes)

/-- A finite history of cache writes applied in order to the empty cache. -/
def applyPuts (ps : List (Nat × HashKey × List Nat)) : SlotCache :=
  ps.foldl (fun c p => put c p.1 p.2.1 p.2.2) []

/-- Reference function for C5: the value of the last `put` in the history
for `(slot, key)`, `none` when that pair was never put. -/
def lastPut : List (Nat × HashKey × List Nat) → Nat → HashKey →
    Option (List Nat)
  | [], _, _ => none
  | p :: tl, s, k =>
    match lastPut tl s k with
    | some v => some v
    | none => if p.1 = s ∧ p.2.1 = k then some p.2.2 else none

/-- Values stored for `key` in the bucket of `slot` — exactly the records
a confirmation flush of `slot` would emit for that key. -/
def entriesFor (c : SlotCache) (s : Nat) (k : HashKey) : List (List Nat) :=
  (((cacheGet c s).getD []).filter (fun e => e.1 = k)).map (fun e => e.2)

/-- Model of `update_slot_status` of the scaffold hook (scaffold
geyser_plugin_hook.rs lines 161-188): return immediately unless the
status is Confirmed; otherwise drain the slot's bucket, publishing every
stored value, and invalidate the slot.  Result: published records and
the cache afterwards. -/
def scaffold_update_slot_status (c : SlotCache) (slot : Nat)
    (status : SlotStatus) : List (List Nat) × SlotCache :=
  if status ≠ SlotStatus.confirmed then
    ([], c)
  else
    match cacheGet c slot with
    | some bucket => (bucket.map (fun e => e.2), cacheInvalidate c slot)
    | none => ([], c)

/-- A record published by the src-variant slot handler, retaining the
arguments handed to `flatbuffer::serialize_slot`. -/
inductive PubRecord
  | slotRecord (slot : Nat) (parent : Option Nat) (status : SlotStatus)
  deriving Repr, DecidableEq

/-- Model of `update_slot_status` of src/src/geyser_plugin_hook.rs lines 187-202:
serialize a slot record and publish it, for every status; there is no
slot cache in this variant. -/
def src_update_slot_status (slot : Nat) (parent : Option Nat)
    (status : SlotStatus) : List PubRecord :=
  [PubRecord.slotRecord slot parent status]

/-- The scaffold's `Metrics` counters (scaffold metrics.rs). -/
structure Metrics where
  send_errs : Nat
  disconnect_errs : Nat
  serialize_errs : Nat
  sender_lock_errs : Nat
  conn_lock_errs : Nat
  cache_lock_errs : Nat
  untyped_errs : Nat
  deriving Repr, DecidableEq

/-- Result of the inner handler closure handed to `with_inner`: success,
a downcast `GeyserError`, or any other (`untyped`) error. -/
inductive InnerResult
  | ok
  | known (e : GeyserError)
  | untyped
  deriving Repr, DecidableEq

/-- The error translator `GeyserPluginHook::with_inner` (scaffold
geyser_plugin_hook.rs lines 282-339): on a known `GeyserError`, bump the
matching counter and report success to the host (`true`); on an untyped
error, bump `untyped_errs` and report failure; when the plugin is not
initialized, fail without touching the metrics. -/
def with_inner (inner : Option Metrics) (r : InnerResult) :
    Option Metrics × Bool :=
  match inner with
  | none => (none, false)
  | some m =>
    match r with
    | InnerResult.ok => (some m, true)
    | InnerResult.known e =>
      (some (match e with
        | GeyserError.tcpSend n =>
            { m with send_errs := m.send_errs + n }
        | GeyserError.tcpDisconnects n =>
            { m with disconnect_errs := m.disconnect_errs + n }
        | GeyserError.txSerializeError =>
            { m with serialize_errs := m.serialize_errs + 1 }
        | GeyserError.senderLockError =>
            { m with sender_lock_errs := m.sender_lock_errs + 1 }
        | GeyserError.connLockError =>
            { m with conn_lock_errs := m.conn_lock_errs + 1 }
        | GeyserError.cacheLockError =>
            { m with cache_lock_errs := m.cache_lock_errs + 1 }), true)
    | InnerResult.untyped =>
      (some { m with untyped_errs := m.untyped_errs + 1 }, false)

/-- The `GeyserError` enum of the src variant (src/src/errors.rs): it has
`TcpDisconnects` but no `CacheLockError`. -/
inductive SrcGeyserError
  | tcpSend (n : Nat)
  | tcpDisconnects (n : Nat)
  | senderLockError
  | connLockError
  | txSerializeError
  deriving Repr, DecidableEq

/-- The src variant's `Metrics` counters (src/src/metrics.rs): there is
no disconnect counter at all. -/
structure SrcMetrics where
  send_errs : Nat
  tx_serialize_errs : Nat
  instruction_serialize_errs : Nat
  sender_lock_errs : Nat
  conn_lock_errs : Nat
  untyped_errs : Nat
  deriving Repr, DecidableEq

/-- Result of the inner handler closure handed to the src variant's
`with_inner`. -/
inductive SrcInnerResult
  | ok
  | known (e : SrcGeyserError)
  | untyped
  deriving Repr, DecidableEq

/-- The error translator `with_inner` of the src variant
(src/src/geyser_plugin_hook.rs lines 31-74).  Its match covers only
`TcpSend`, `TxSerializeError`, `SenderLockError` and `ConnLockError`:
there is no arm for `TcpDisconnects` even though the src sender emits it
(src/src/sender.rs line 164), and the src `Metrics` has no disconnect
counter; the uncovered kind is modelled as `none`.  The
`TxSerializeError` arm bumps the transaction-serialization counter (the
source match names the field `serialize_errs` while the struct declares
`tx_serialize_errs`). -/
def src_with_inner (m : SrcMetrics) (r : SrcInnerResult) :
    Option (SrcMetrics × Bool) :=
  match r with
  | SrcInnerResult.ok => some (m, true)
  | SrcInnerResult.known e =>
    match e with
    | SrcGeyserError.tcpSend n =>
        some ({ m with send_errs := m.send_errs + n }, true)
    | SrcGeyserError.txSerializeError =>
        some ({ m with tx_serialize_errs := m.tx_serialize_errs + 1 }, true)
    | SrcGeyserError.senderLockError =>
        some ({ m with sender_lock_errs := m.sender_lock_errs + 1 }, true)
    | SrcGeyserError.connLockError =>
        some ({ m with conn_lock_errs := m.conn_lock_errs + 1 }, true)
    | SrcGeyserError.tcpDisconnects _ => none
  | SrcInnerResult.untyped =>
      some ({ m with untyped_errs := m.untyped_errs + 1 }, false)

end Geyser

namespace Geyser

theorem u32le_length (n : Nat) : (u32le n).length = 4 := rfl

theorem leU32_u32le (n : Nat) : leU32 (u32le n) = n % 2 ^ 32 := by
  simp only [u32le, leU32, List.take, List.foldr]
  omega

theorem leU32_u32le_of_lt {n : Nat} (h : n < 2 ^ 32) : leU32 (u32le n) = n := by
  rw [leU32_u32le, Nat.mod_eq_of_lt h]

theorem u32le_take_append (n : Nat) (l : List Nat) :
    ((u32le n ++ l).take 4) = u32le n := by
  simp [u32le]

theorem leU32_append (n : Nat) (l : List Nat) :
    leU32 (u32le n ++ l) = n % 2 ^ 32 := by
  rw [leU32, u32le_take_append, ← leU32_u32le]
  rfl

theorem frame_length (msg : List Nat) : (frame msg).length = 4 + msg.length := by
  simp [frame, u32le]
  omega

theorem append_inv {b : TcpBuffer} (h : b.inv) (msg : List Nat) :
    (b.append msg).inv := by
  simp only [TcpBuffer.inv, TcpBuffer.append] at *
  simp [h]

theorem flush_data_inv (b : TcpBuffer) : (b.flush_data).2.inv := by
  simp [TcpBuffer.inv, TcpBuffer.flush_data]

theorem flush_data_clears (b : TcpBuffer) :
    (b.flush_data).2.data = [] ∧ (b.flush_data).2.total_bytesize = 0 := by
  simp [TcpBuffer.flush_data]

theorem read_records_nil : read_records [] = some [] := by
  rw [read_records]
  simp

theorem read_records_cons (body : List Nat) (hne : body ≠ [])
    (h4 : 4 ≤ body.length) (hs : leU32 (body.take 4) ≤ (body.drop 4).length) :
    read_records body =
      (read_records ((body.drop 4).drop (leU32 (body.take 4)))).map
        (fun rs => (body.drop 4).take (leU32 (body.take 4)) :: rs) := by
  have hs' : leU32 (body.take 4) ≤ body.length - 4 := by
    simpa using hs
  rw [read_records]
  simp [hne, h4, hs']

theorem read_records_short (body : List Nat) (hne : body ≠ [])
    (h4 : ¬ 4 ≤ body.length) : read_records body = none := by
  rw [read_records]
  simp [hne, h4]

theorem read_records_over (body : List Nat) (hne : body ≠ [])
    (h4 : 4 ≤ body.length) (hs : ¬ leU32 (body.take 4) ≤ (body.drop 4).length) :
    read_records body = none := by
  have hs' : ¬ leU32 (body.take 4) ≤ body.length - 4 := by
    simpa using hs
  rw [read_records]
  simp [hne, h4, hs']

theorem read_records_wf (body : List Nat) (h : WFBody body) :
    ∃ rs, read_records body = some rs ∧ framedSize rs = body.length := by
  induction h with
  | nil => exact ⟨[], read_records_nil, rfl⟩
  | cons b h4 hs htail ih =>
    obtain ⟨rs, hrs, hlen⟩ := ih
    have hne : b ≠ [] := by
      intro h0; subst h0; simp at h4
    refine ⟨(b.drop 4).take (leU32 (b.take 4)) :: rs, ?_, ?_⟩
    · rw [read_records_cons b hne h4 hs, hrs]
      rfl
    · simp only [framedSize, List.map_cons, List.sum_cons, List.length_take]
      simp only [framedSize] at hlen
      rw [hlen]
      simp only [List.length_drop]
      omega

theorem read_records_flatten (rs : List (List Nat))
    (h : ∀ r ∈ rs, r.length < 2 ^ 32) :
    read_records ((rs.map frame).flatten) = some rs := by
  induction rs with
  | nil => simpa using read_records_nil
  | cons r tl ih =>
    have hr : r.length < 2 ^ 32 := h r (by simp)
    have htl : ∀ x ∈ tl, x.length < 2 ^ 32 := fun x hx => h x (by simp [hx])
    have hflat : ((r :: tl).map frame).flatten
        = u32le r.length ++ (r ++ (tl.map frame).flatten) := by
      simp [frame]
    have hne : ((r :: tl).map frame).flatten ≠ [] := by
      rw [hflat]; simp [u32le]
    have htake : (((r :: tl).map frame).flatten).take 4 = u32le r.length := by
      rw [hflat]; exact u32le_take_append _ _
    have hdrop : (((r :: tl).map frame).flatten).drop 4
        = r ++ (tl.map frame).flatten := by
      rw [hflat]
      have : (u32le r.length).length = 4 := u32le_length _
      simp [List.drop_append_of_le_length, this]
    have hdec : leU32 ((((r :: tl).map frame).flatten).take 4) = r.length := by
      rw [htake]; exact leU32_u32le_of_lt hr
    have h4 : 4 ≤ (((r :: tl).map frame).flatten).length := by
      rw [hflat]; simp [u32le]
    have hs : leU32 ((((r :: tl).map frame).flatten).take 4)
        ≤ ((((r :: tl).map frame).flatten).drop 4).length := by
      rw [hdec, hdrop]; simp
    rw [read_records_cons _ hne h4 hs, hdec, hdrop]
    have htk : (r ++ (tl.map frame).flatten).take r.length = r := by
      simp
    have hdr : (r ++ (tl.map frame).flatten).drop r.length
        = (tl.map frame).flatten := by
      simp
    rw [htk, hdr, ih htl]
    rfl

theorem flatten_frames_length (rs : List (List Nat)) :
    ((rs.map frame).flatten).length = framedSize rs := by
  simp only [List.length_flatten, List.map_map, framedSize]
  congr 1
  apply List.map_congr_left
  intro r _
  exact frame_length r

theorem foldl_append_empty (rs : List (List Nat)) :
    List.foldl TcpBuffer.append ⟨[], 0⟩ rs =
      ⟨rs.map frame, framedSize rs⟩ := by
  suffices h : ∀ b : TcpBuffer, List.foldl TcpBuffer.append b rs =
      ⟨b.data ++ rs.map frame, b.total_bytesize + framedSize rs⟩ by
    simpa using h ⟨[], 0⟩
  induction rs with
  | nil => intro b; simp [framedSize]
  | cons r tl ih =>
    intro b
    simp only [List.foldl_cons, ih, TcpBuffer.append, List.map_cons,
      TcpBuffer.mk.injEq]
    refine ⟨by simp, ?_⟩
    simp only [framedSize, List.map_cons, List.sum_cons, frame_length]
    omega

theorem flush_data_snd (b : TcpBuffer) : (b.flush_data).2 = ⟨[], 0⟩ := rfl

theorem publishLoop_empty_buf (strict withSleep : Bool)
    (outcome : Nat → Option GeyserError) :
    ∀ fuel k, (publishLoop strict withSleep outcome ⟨[], 0⟩ k fuel).1
      = ⟨[], 0⟩ := by
  intro fuel
  induction fuel with
  | zero => intro k; rfl
  | succ f ih =>
    intro k
    cases ho : outcome k with
    | none => simp [publishLoop, ho, TcpBuffer.flush_data]
    | some e =>
      cases strict with
      | false => simp [publishLoop, ho, TcpBuffer.flush_data]
      | true => simp [publishLoop, ho, TcpBuffer.flush_data, ih]

theorem publishLoop_buf (strict withSleep : Bool)
    (outcome : Nat → Option GeyserError) (buf : TcpBuffer) (k fuel : Nat)
    (hfuel : 0 < fuel) :
    (publishLoop strict withSleep outcome buf k fuel).1 = ⟨[], 0⟩ := by
  obtain ⟨f, rfl⟩ : ∃ f, fuel = f + 1 := ⟨fuel - 1, by omega⟩
  cases ho : outcome k with
  | none => simp [publishLoop, ho, TcpBuffer.flush_data]
  | some e =>
    cases strict with
    | false => simp [publishLoop, ho, TcpBuffer.flush_data]
    | true => simp [publishLoop, ho, TcpBuffer.flush_data,
        publishLoop_empty_buf]

theorem publishLoop_head (strict withSleep : Bool)
    (outcome : Nat → Option GeyserError) (buf : TcpBuffer) (k fuel : Nat)
    (hfuel : 0 < fuel) :
    (publishLoop strict withSleep outcome buf k fuel).2.1.head? =
      some (SendAction.broadcast (buf.flush_data).1) := by
  obtain ⟨f, rfl⟩ : ∃ f, fuel = f + 1 := ⟨fuel - 1, by omega⟩
  cases ho : outcome k with
  | none => simp [publishLoop, ho]
  | some e =>
    cases strict with
    | false => simp [publishLoop, ho]
    | true => simp [publishLoop, ho]

theorem publishLoop_strict_eq (withSleep : Bool)
    (outcome : Nat → Option GeyserError) (buf : TcpBuffer) (k0 k fuel : Nat)
    (hf : ∀ i, i < k → outcome (k0 + i) ≠ none)
    (hs : outcome (k0 + k) = none) (hfuel : k < fuel) :
    publishLoop true withSleep outcome buf k0 fuel =
      (⟨[], 0⟩,
        SendAction.broadcast (buf.flush_data).1 ::
          retryTail withSleep ((⟨[], 0⟩ : TcpBuffer).flush_data).1 k,
        some (Except.ok ())) := by
  induction k generalizing buf k0 fuel with
  | zero =>
    obtain ⟨f, rfl⟩ : ∃ f, fuel = f + 1 := ⟨fuel - 1, by omega⟩
    have hs0 : outcome k0 = none := by simpa using hs
    simp [publishLoop, hs0, retryTail, TcpBuffer.flush_data]
  | succ k ih =>
    obtain ⟨f, rfl⟩ : ∃ f, fuel = f + 1 := ⟨fuel - 1, by omega⟩
    obtain ⟨e, he⟩ : ∃ e, outcome k0 = some e := by
      cases ho : outcome k0 with
      | none => exact absurd (by simpa using ho) (hf 0 (by omega))
      | some e => exact ⟨e, rfl⟩
    have hrest := ih (⟨[], 0⟩ : TcpBuffer) (k0 + 1) f
      (fun i hi => by
        have := hf (i + 1) (by omega)
        rwa [show k0 + (i + 1) = k0 + 1 + i by omega] at this)
      (by rwa [show k0 + 1 + k = k0 + (k + 1) by omega])
      (by omega)
    simp only [publishLoop, he]
    rw [show (buf.flush_data).2 = (⟨[], 0⟩ : TcpBuffer) from rfl, hrest]
    simp [retryTail]

theorem bucketInsert_keys (m : Bucket) (k : HashKey) (v : List Nat) :
    ∀ x, x ∈ (bucketInsert m k v).map Prod.fst →
      x ∈ m.map Prod.fst ∨ x = k := by
  induction m with
  | nil =>
    intro x hx
    simp [bucketInsert] at hx
    exact Or.inr hx
  | cons e tl ih =>
    intro x hx
    by_cases he : e.1 = k
    · simp only [bucketInsert, if_pos he, List.map_cons, List.mem_cons] at hx
      rcases hx with rfl | hx
      · exact Or.inr rfl
      · exact Or.inl (by simp [hx])
    · simp only [bucketInsert, if_neg he, List.map_cons, List.mem_cons] at hx
      rcases hx with rfl | hx
      · exact Or.inl (by simp)
      · rcases ih x hx with h | h
        · exact Or.inl (by simp [h])
        · exact Or.inr h

theorem bucketInsert_nodup (m : Bucket) (k : HashKey) (v : List Nat)
    (h : (m.map Prod.fst).Nodup) :
    ((bucketInsert m k v).map Prod.fst).Nodup := by
  induction m with
  | nil => simp [bucketInsert]
  | cons e tl ih =>
    simp only [List.map_cons, List.nodup_cons] at h
    by_cases he : e.1 = k
    · simp only [bucketInsert, if_pos he, List.map_cons, List.nodup_cons]
      exact ⟨he ▸ h.1, h.2⟩
    · simp only [bucketInsert, if_neg he, List.map_cons, List.nodup_cons]
      refine ⟨?_, ih h.2⟩
      intro hmem
      rcases bucketInsert_keys tl k v e.1 hmem with hh | hh
      · exact h.1 hh
      · exact he hh

theorem bucketInsert_filter_self (m : Bucket) (k : HashKey) (v : List Nat)
    (h : (m.map Prod.fst).Nodup) :
    (bucketInsert m k v).filter (fun e => e.1 = k) = [(k, v)] := by
  induction m with
  | nil => simp [bucketInsert]
  | cons e tl ih =>
    simp only [List.map_cons, List.nodup_cons] at h
    by_cases he : e.1 = k
    · have htl : tl.filter (fun x => x.1 = k) = [] := by
        rw [List.filter_eq_nil_iff]
        intro a ha
        simp only [decide_eq_true_eq]
        intro hak
        apply h.1
        have : a.1 ∈ tl.map Prod.fst := List.mem_map_of_mem _ ha
        rwa [hak, ← he] at this
      simp [bucketInsert, he, htl]
    · simp [bucketInsert, he, ih h.2]

theorem bucketInsert_filter_other (m : Bucket) (k q : HashKey) (v : List Nat)
    (hne : q ≠ k) :
    (bucketInsert m k v).filter (fun e => e.1 = q) =
      m.filter (fun e => e.1 = q) := by
  have hk : ¬ ((k : HashKey) = q) := fun hh => hne hh.symm
  induction m with
  | nil => simp [bucketInsert, hk]
  | cons e tl ih =>
    by_cases he : e.1 = k
    · have heq : ¬ (e.1 = q) := by rw [he]; exact hk
      simp [bucketInsert, he, hk, heq]
    · simp only [bucketInsert, if_neg he, List.filter_cons, ih]

theorem cacheGet_cacheInsert_self (c : SlotCache) (s : Nat) (b : Bucket) :
    cacheGet (cacheInsert c s b) s = some b := by
  induction c with
  | nil => simp [cacheInsert, cacheGet]
  | cons e tl ih =>
    by_cases he : e.1 = s
    · simp [cacheInsert, he, cacheGet]
    · simp only [cacheInsert, if_neg he]
      unfold cacheGet
      rw [List.find?_cons_of_neg _ (by simpa using he)]
      exact ih

theorem cacheGet_cacheInsert_other (c : SlotCache) (s t : Nat) (b : Bucket)
    (hne : t ≠ s) :
    cacheGet (cacheInsert c s b) t = cacheGet c t := by
  have hst : ¬ ((s : Nat) = t) := fun hh => hne hh.symm
  induction c with
  | nil =>
    unfold cacheInsert cacheGet
    rw [List.find?_cons_of_neg _ (by simpa using hst)]
  | cons e tl ih =>
    by_cases he : e.1 = s
    · simp only [cacheInsert, if_pos he]
      unfold cacheGet
      rw [List.find?_cons_of_neg _ (by simpa using hst),
        List.find?_cons_of_neg _ (by simp [he, hst])]
    · simp only [cacheInsert, if_neg he]
      by_cases het : e.1 = t
      · unfold cacheGet
        rw [List.find?_cons_of_pos _ (by simpa using het),
          List.find?_cons_of_pos _ (by simpa using het)]
      · unfold cacheGet
        rw [List.find?_cons_of_neg _ (by simpa using het),
          List.find?_cons_of_neg _ (by simpa using het)]
        exact ih

theorem cacheGet_cacheInvalidate (c : SlotCache) (s : Nat) :
    cacheGet (cacheInvalidate c s) s = none := by
  induction c with
  | nil => rfl
  | cons e tl ih =>
    by_cases he : e.1 = s
    · simpa [cacheInvalidate, he] using ih
    · simp only [cacheInvalidate, List.filter_cons]
      rw [if_pos (by simpa using he)]
      unfold cacheGet
      rw [List.find?_cons_of_neg _ (by simpa using he)]
      simp only [cacheInvalidate, cacheGet] at ih
      exact ih

/-- Every slot bucket has pairwise-distinct keys: the claim's
at-most-one-entry-per-(slot, key) invariant. -/
def CacheKeysNodup (c : SlotCache) : Prop :=
  ∀ s, (((cacheGet c s).getD []).map Prod.fst).Nodup

theorem put_keysNodup (c : SlotCache) (s0 : Nat) (k0 : HashKey)
    (v : List Nat) (h : CacheKeysNodup c) :
    CacheKeysNodup (put c s0 k0 v) := by
  intro s
  by_cases hs : s = s0
  · subst hs
    unfold put
    rw [cacheGet_cacheInsert_self]
    exact bucketInsert_nodup _ _ _ (h s)
  · unfold put
    rw [cacheGet_cacheInsert_other _ _ _ _ hs]
    exact h s

theorem entriesFor_put_self (c : SlotCache) (s : Nat) (k : HashKey)
    (v : List Nat) (h : CacheKeysNodup c) :
    entriesFor (put c s k v) s k = [v] := by
  unfold entriesFor put
  rw [cacheGet_cacheInsert_self]
  simp only [Option.getD_some]
  rw [bucketInsert_filter_self _ _ _ (h s)]
  rfl

theorem entriesFor_put_other_key (c : SlotCache) (s : Nat) (k k0 : HashKey)
    (v : List Nat) (hne : k ≠ k0) :
    entriesFor (put c s k0 v) s k = entriesFor c s k := by
  unfold entriesFor put
  rw [cacheGet_cacheInsert_self]
  simp only [Option.getD_some]
  rw [bucketInsert_filter_other _ _ _ _ hne]

theorem entriesFor_put_other_slot (c : SlotCache) (s s0 : Nat)
    (k k0 : HashKey) (v : List Nat) (hne : s ≠ s0) :
    entriesFor (put c s0 k0 v) s k = entriesFor c s k := by
  unfold entriesFor put
  rw [cacheGet_cacheInsert_other _ _ _ _ hne]

theorem applyPuts_go (ps : List (Nat × HashKey × List Nat)) :
    ∀ c : SlotCache, CacheKeysNodup c →
      CacheKeysNodup (ps.foldl (fun c p => put c p.1 p.2.1 p.2.2) c) ∧
      ∀ s k, entriesFor (ps.foldl (fun c p => put c p.1 p.2.1 p.2.2) c) s k =
        ((lastPut ps s k).map (fun v => [v])).getD (entriesFor c s k) := by
  induction ps with
  | nil =>
    intro c hc
    refine ⟨hc, fun s k => ?_⟩
    simp [lastPut]
  | cons p tl ih =>
    intro c hc
    have hc' := put_keysNodup c p.1 p.2.1 p.2.2 hc
    obtain ⟨hnd, hent⟩ := ih (put c p.1 p.2.1 p.2.2) hc'
    refine ⟨by simpa using hnd, fun s k => ?_⟩
    simp only [List.foldl_cons]
    rw [hent s k]
    cases hl : lastPut tl s k with
    | some v => simp [lastPut, hl]
    | none =>
      simp only [lastPut, hl]
      by_cases hps : p.1 = s ∧ p.2.1 = k
      · rw [if_pos hps]
        obtain ⟨h1, h2⟩ := hps
        subst h1
        subst h2
        simpa using entriesFor_put_self c p.1 p.2.1 p.2.2 hc
      · rw [if_neg hps]
        simp only [Option.map_none', Option.getD_none]
        by_cases h1 : p.1 = s
        · have h2 : p.2.1 ≠ k := fun hh => hps ⟨h1, hh⟩
          subst h1
          exact entriesFor_put_other_key c p.1 k p.2.1 p.2.2 (Ne.symm h2)
        · exact entriesFor_put_other_slot c s p.1 k p.2.1 p.2.2
            (fun hh => h1 hh.symm)

theorem scaffold_flush_confirmed (c : SlotCache) (slot : Nat) :
    (scaffold_update_slot_status c slot SlotStatus.confirmed).1 =
      ((cacheGet c slot).getD []).map (fun e => e.2) ∧
    cacheGet (scaffold_update_slot_status c slot SlotStatus.confirmed).2
      slot = none := by
  unfold scaffold_update_slot_status
  cases hget : cacheGet c slot with
  | none => simp [hget]
  | some b => simp [hget, cacheGet_cacheInvalidate]

/-- C7: the `TcpBuffer` invariant `total_bytesize = Σ len(framed records)`
is preserved by every `append` and every `flush_data`, and immediately
after any `flush_data` the buffer holds no records and the counter is 0. -/
theorem C7_buffer_invariant (b : TcpBuffer) (msg : List Nat) (h : b.inv) :
    (b.append msg).inv ∧
    (b.flush_data).2.inv ∧
    (b.flush_data).2.data = [] ∧
    (b.flush_data).2.total_bytesize = 0 := by
  refine ⟨append_inv h msg, flush_data_inv b, flush_data_clears b⟩

/-- C7 witness: the invariant facts evaluated on a concrete buffer holding
one framed 1-byte record. -/
theorem C7_buffer_invariant_witness :
    (TcpBuffer.inv ⟨[[1, 0, 0, 0, 7]], 5⟩) ∧
    ((TcpBuffer.append ⟨[[1, 0, 0, 0, 7]], 5⟩ [9]).inv ∧
     ((⟨[[1, 0, 0, 0, 7]], 5⟩ : TcpBuffer).flush_data).2.inv ∧
     ((⟨[[1, 0, 0, 0, 7]], 5⟩ : TcpBuffer).flush_data).2.data = [] ∧
     ((⟨[[1, 0, 0, 0, 7]], 5⟩ : TcpBuffer).flush_data).2.total_bytesize = 0) :=
  ⟨by decide, C7_buffer_invariant ⟨[[1, 0, 0, 0, 7]], 5⟩ [9] (by decide)⟩

/-- C1: framing round-trip.  Append any finite sequence of records to an
empty `TcpBuffer`, emit one batch with `flush_data`; running
`TcpReceiver::read_response` on exactly the batch's bytes recovers the
original records, in order.  The hypothesis keeps the batch within the
`u32` header (framed size below 2^32), without which the `as u32` casts
truncate. -/
theorem C1_framing_round_trip (rs : List (List Nat))
    (h : framedSize rs < 2 ^ 32) :
    read_response ((List.foldl TcpBuffer.append ⟨[], 0⟩ rs).flush_data).1
      = some rs := by
  rw [foldl_append_empty]
  show read_response (u32le (framedSize rs) ++ (rs.map frame).flatten) = some rs
  have hlen : ((rs.map frame).flatten).length = framedSize rs :=
    flatten_frames_length rs
  have h4 : 4 ≤ (u32le (framedSize rs) ++ (rs.map frame).flatten).length := by
    simp [u32le]
  have htake : (u32le (framedSize rs) ++ (rs.map frame).flatten).take 4
      = u32le (framedSize rs) := u32le_take_append _ _
  have hdrop : (u32le (framedSize rs) ++ (rs.map frame).flatten).drop 4
      = (rs.map frame).flatten := by
    have h4' : (u32le (framedSize rs)).length = 4 := u32le_length _
    simp [List.drop_append_of_le_length, h4']
  have hdec : leU32 ((u32le (framedSize rs) ++ (rs.map frame).flatten).take 4)
      = framedSize rs := by
    rw [htake]; exact leU32_u32le_of_lt h
  rw [read_response, if_pos h4, hdec, hdrop, hlen]
  rw [if_pos le_rfl, ← hlen, List.take_length]
  apply read_records_flatten
  intro r hr
  have hle : 4 + r.length ≤ framedSize rs := by
    have : (4 + r.length) ∈ rs.map (fun r => 4 + r.length) :=
      List.mem_map_of_mem _ hr
    exact List.single_le_sum (by intro x _; omega) _ this
  omega

/-- C1 witness: two concrete records `[7]` and `[8, 9]` survive the
append/flush/read_response round trip. -/
theorem C1_framing_round_trip_witness :
    framedSize [[7], [8, 9]] < 2 ^ 32 ∧
    read_response
        ((List.foldl TcpBuffer.append ⟨[], 0⟩ [[7], [8, 9]]).flush_data).1
      = some [[7], [8, 9]] :=
  ⟨by decide, C1_framing_round_trip [[7], [8, 9]] (by decide)⟩

/-- C10: on every well-formed batch body — at each parse position at least
4 bytes remain for the length field and the declared length does not
exceed the bytes remaining after it — the record-iteration loop of
`read_response` never reaches the out-of-bounds branch (`none`) and
terminates having consumed exactly the whole body. -/
theorem C10_read_loop_safety (body : List Nat) (h : WFBody body) :
    ∃ rs, read_records body = some rs ∧ framedSize rs = body.length :=
  read_records_wf body h

/-- C2: `TcpSender::publish` appends the framed message; a broadcast of a
drained batch happens within the same call if and only if the updated
`total_bytesize` is at least `batch_max_bytes`.  Below the threshold it
returns Ok, performs no action, and the buffer retains every appended
record; at or above it the call's first action is a broadcast of the
drained batch and the buffer is left drained. -/
theorem C2_publish_threshold (bmax : Nat) (strict withSleep : Bool)
    (outcome : Nat → Option GeyserError) (buffer : TcpBuffer)
    (message : List Nat) (fuel : Nat) :
    ((buffer.append message).total_bytesize < bmax →
      publish bmax strict withSleep outcome buffer message fuel =
        (buffer.append message, [], some (Except.ok ())) ∧
      (buffer.append message).data = buffer.data ++ [frame message]) ∧
    (bmax ≤ (buffer.append message).total_bytesize → 0 < fuel →
      (publish bmax strict withSleep outcome buffer message fuel).1 =
        ((buffer.append message).flush_data).2 ∧
      (publish bmax strict withSleep outcome buffer message fuel).2.1.head? =
        some (SendAction.broadcast ((buffer.append message).flush_data).1)) := by
  constructor
  · intro hlt
    exact ⟨by simp [publish, hlt], rfl⟩
  · intro hge hfuel
    have hnlt : ¬ (buffer.append message).total_bytesize < bmax := by omega
    constructor
    · simp only [publish, if_neg hnlt]
      rw [publishLoop_buf strict withSleep outcome _ 0 fuel hfuel,
        flush_data_snd]
    · simp only [publish, if_neg hnlt]
      exact publishLoop_head strict withSleep outcome _ 0 fuel hfuel

/-- C2 witness: with threshold 100 a 3-byte message (7 framed bytes) stays
buffered; with threshold 5 the same message triggers a broadcast of the
drained batch in the same call. -/
theorem C2_publish_threshold_witness :
    (publish 100 false false (fun _ => none) ⟨[], 0⟩ [1, 2, 3] 1 =
        (TcpBuffer.append ⟨[], 0⟩ [1, 2, 3], [], some (Except.ok ())) ∧
      (TcpBuffer.append ⟨[], 0⟩ [1, 2, 3]).data = [] ++ [frame [1, 2, 3]]) ∧
    ((publish 5 false false (fun _ => none) ⟨[], 0⟩ [1, 2, 3] 1).1 =
        ((TcpBuffer.append ⟨[], 0⟩ [1, 2, 3]).flush_data).2 ∧
      (publish 5 false false (fun _ => none) ⟨[], 0⟩ [1, 2, 3] 1).2.1.head? =
        some (SendAction.broadcast
          ((TcpBuffer.append ⟨[], 0⟩ [1, 2, 3]).flush_data).1)) :=
  ⟨(C2_publish_threshold 100 false false (fun _ => none) ⟨[], 0⟩ [1, 2, 3] 1).1
      (by decide),
   (C2_publish_threshold 5 false false (fun _ => none) ⟨[], 0⟩ [1, 2, 3] 1).2
      (by decide) (by decide)⟩

/-- C3: `publish_batch` returns `TcpSend(n_full)` when at least one queue
was full (`n_full` = count of full queues), `TcpDisconnects(n_disc)` when
none was full and at least one was closed (`n_disc` = count of closed
queues), and Ok when every try_send succeeded. -/
theorem C3_publish_batch_classification (results : List TrySendRes) :
    (0 < (results.filter (fun r => r = TrySendRes.full)).length →
      publish_batch results = Except.error (GeyserError.tcpSend
        (results.filter (fun r => r = TrySendRes.full)).length)) ∧
    ((results.filter (fun r => r = TrySendRes.full)).length = 0 →
      0 < (results.filter (fun r => r = TrySendRes.disconnected)).length →
      publish_batch results = Except.error (GeyserError.tcpDisconnects
        (results.filter (fun r => r = TrySendRes.disconnected)).length)) ∧
    ((∀ r ∈ results, r = TrySendRes.ok) →
      publish_batch results = Except.ok ()) := by
  refine ⟨fun h => by simp [publish_batch, h],
    fun h1 h2 => by simp [publish_batch, h1, h2], fun h => ?_⟩
  have hf : results.filter (fun r => r = TrySendRes.full) = [] := by
    rw [List.filter_eq_nil_iff]
    intro a ha
    simp [h a ha]
  have hd : results.filter (fun r => r = TrySendRes.disconnected) = [] := by
    rw [List.filter_eq_nil_iff]
    intro a ha
    simp [h a ha]
  simp [publish_batch, hf, hd]

/-- C3 witness: one full queue yields `TcpSend 1`; one closed queue and no
full one yields `TcpDisconnects 1`; all-Ok yields Ok. -/
theorem C3_publish_batch_classification_witness :
    publish_batch [TrySendRes.full, TrySendRes.disconnected] =
      Except.error (GeyserError.tcpSend 1) ∧
    publish_batch [TrySendRes.disconnected, TrySendRes.ok] =
      Except.error (GeyserError.tcpDisconnects 1) ∧
    publish_batch [TrySendRes.ok, TrySendRes.ok] = Except.ok () :=
  ⟨(C3_publish_batch_classification
      [TrySendRes.full, TrySendRes.disconnected]).1 (by decide),
   (C3_publish_batch_classification
      [TrySendRes.disconnected, TrySendRes.ok]).2.1 (by decide) (by decide),
   (C3_publish_batch_classification
      [TrySendRes.ok, TrySendRes.ok]).2.2 (by decide)⟩

/-- C4 counterexample: the source re-evaluates `buffer.flush_data()` on
every retry iteration, so the retried broadcast is the 4-byte empty batch
`[0,0,0,0]` — not the batch that failed.  With one failing and one
succeeding attempt (utils variant, which does sleep between attempts),
the action trace's second broadcast differs byte-for-byte from the first,
refuting "retries publish_batch indefinitely with the same batch
(byte-for-byte identical to the batch that failed)". -/
theorem C4_empty_batch_counterexample :
    (publish 1 true true
        (fun n => if n = 0 then some (GeyserError.tcpSend 1) else none)
        ⟨[], 0⟩ [7] 2).2.1 =
      [SendAction.broadcast (u32le 5 ++ frame [7]),
       SendAction.sleepSec 1,
       SendAction.broadcast (u32le 0)] ∧
    u32le 5 ++ frame [7] ≠ u32le 0 :=
  ⟨by decide, by decide⟩

/-- C4 (amended): when strict_delivery is true and the `publish_batch`
triggered by `publish` fails, `publish` retries indefinitely until an
attempt succeeds, but each iteration re-runs `flush_data` on the buffer:
the first attempt broadcasts the real drained batch and every retry
broadcasts the 4-byte empty batch `[0,0,0,0]` — the failed batch is not
resent.  The utils sender sleeps 1 second between attempts
(`withSleep = true`), while the src sender retries immediately
(`withSleep = false`); `retryTail` lists the sleeps accordingly.  With
`k` failures before the first success the call returns Ok with the
buffer left drained. -/
theorem C4_strict_delivery_retry (withSleep : Bool)
    (outcome : Nat → Option GeyserError) (bmax : Nat) (buffer : TcpBuffer)
    (message : List Nat) (fuel k : Nat)
    (htrig : bmax ≤ (buffer.append message).total_bytesize)
    (hf : ∀ i, i < k → outcome i ≠ none)
    (hsucc : outcome k = none) (hfuel : k < fuel) :
    publish bmax true withSleep outcome buffer message fuel =
      (⟨[], 0⟩,
        SendAction.broadcast ((buffer.append message).flush_data).1 ::
          retryTail withSleep ((⟨[], 0⟩ : TcpBuffer).flush_data).1 k,
        some (Except.ok ())) ∧
    ((⟨[], 0⟩ : TcpBuffer).flush_data).1 = u32le 0 ∧
    u32le 0 = [0, 0, 0, 0] := by
  have hnlt : ¬ (buffer.append message).total_bytesize < bmax := by omega
  have hloop := publishLoop_strict_eq withSleep outcome
    (buffer.append message) 0 k fuel
    (fun i hi => by simpa using hf i hi) (by simpa using hsucc) hfuel
  refine ⟨?_, rfl, rfl⟩
  simp [publish, hnlt, hloop]

/-- C4 witness: utils variant, one failure then success — the call
returns Ok, the first broadcast is the real batch and the retry
broadcasts the empty batch after a 1-second sleep. -/
theorem C4_strict_delivery_retry_witness :
    publish 1 true true
        (fun n => if n = 0 then some (GeyserError.tcpSend 1) else none)
        ⟨[], 0⟩ [7] 2 =
      (⟨[], 0⟩,
        SendAction.broadcast ((TcpBuffer.append ⟨[], 0⟩ [7]).flush_data).1 ::
          retryTail true ((⟨[], 0⟩ : TcpBuffer).flush_data).1 1,
        some (Except.ok ())) :=
  (C4_strict_delivery_retry true
    (fun n => if n = 0 then some (GeyserError.tcpSend 1) else none)
    1 ⟨[], 0⟩ [7] 2 1 (by decide)
    (fun i hi => by
      have h0 : i = 0 := by omega
      subst h0
      decide)
    (by decide) (by decide)).1

/-- C8 counterexample: framing a record of 2^32 bytes does not fail — the
code has no error path — and the emitted u32_le length field silently
truncates to 0 instead of the record's length 2^32, refuting "fails only
on integer overflow … reported as SerializeError" (no failure exists and
the oversized record is framed with a wrong length). -/
theorem C8_framing_counterexample :
    leU32 ((frame (List.replicate (2 ^ 32) 0)).take 4) = 0 ∧
    (List.replicate (2 ^ 32) (0 : Nat)).length = 2 ^ 32 ∧
    ¬ leU32 ((frame (List.replicate (2 ^ 32) 0)).take 4) =
        (List.replicate (2 ^ 32) (0 : Nat)).length := by
  have hlen : (List.replicate (2 ^ 32) (0 : Nat)).length = 2 ^ 32 :=
    List.length_replicate _ _
  have h1 : leU32 ((frame (List.replicate (2 ^ 32) 0)).take 4) = 0 := by
    unfold frame
    rw [u32le_take_append, leU32_u32le, hlen]
    norm_num
  refine ⟨h1, hlen, ?_⟩
  rw [h1, hlen]
  norm_num

/-- C8 (amended): framing never fails — `TcpBuffer::append` always pushes
exactly one framed record; the emitted u32_le length field equals the
record length modulo 2^32, so for every record of length at most
2^32 - 1 it equals the record's exact byte length, while longer records
are framed with a silently truncated length field and no SerializeError
is ever raised. -/
theorem C8_framing_truncation (b : TcpBuffer) (msg : List Nat) :
    (b.append msg).data = b.data ++ [frame msg] ∧
    (frame msg).take 4 = u32le msg.length ∧
    leU32 ((frame msg).take 4) = msg.length % 2 ^ 32 ∧
    (msg.length < 2 ^ 32 → leU32 ((frame msg).take 4) = msg.length) := by
  have h2 : (frame msg).take 4 = u32le msg.length := by
    simp only [frame]
    exact u32le_take_append _ _
  refine ⟨rfl, h2, ?_, ?_⟩
  · rw [h2, leU32_u32le]
  · intro h
    rw [h2]
    exact leU32_u32le_of_lt h

/-- C8 witness: a 2-byte record gets length field exactly 2. -/
theorem C8_framing_truncation_witness :
    leU32 ((frame [5, 6]).take 4) = 2 :=
  (C8_framing_truncation ⟨[], 0⟩ [5, 6]).2.2.2 (by decide)

/-- C9 counterexample: the src variant's translator has no arm for
`TcpDisconnects` and the src `Metrics` has no disconnect counter, even
though the src sender emits `GeyserError::TcpDisconnects`
(src/src/sender.rs line 164).  A callback failing with
`TcpDisconnects(1)` therefore has no matching metric counter to
increment, refuting the claim for that cited source. -/
theorem C9_src_disconnects_counterexample :
    src_with_inner ⟨0, 0, 0, 0, 0, 0⟩
      (SrcInnerResult.known (SrcGeyserError.tcpDisconnects 1)) = none :=
  rfl

/-- C9 (amended): the scaffold translator handles every known
`GeyserError` kind — TcpSend, TcpDisconnects, TxSerializeError,
SenderLockError, ConnLockError, CacheLockError — incrementing exactly the
matching counter (by the carried count for TcpSend/TcpDisconnects, by 1
otherwise) and returning success to the host, and for an untyped error
increments `untyped_errs` and returns generic failure; the src variant's
translator behaves the same for TcpSend, TxSerializeError,
SenderLockError, ConnLockError and untyped errors, but its match has no
`TcpDisconnects` arm and its `Metrics` no disconnect counter. -/
theorem C9_error_translator (m : Metrics) (m2 : SrcMetrics) (n : Nat) :
    with_inner (some m) InnerResult.ok = (some m, true) ∧
    with_inner (some m) (InnerResult.known (GeyserError.tcpSend n)) =
      (some { m with send_errs := m.send_errs + n }, true) ∧
    with_inner (some m) (InnerResult.known (GeyserError.tcpDisconnects n)) =
      (some { m with disconnect_errs := m.disconnect_errs + n }, true) ∧
    with_inner (some m) (InnerResult.known GeyserError.txSerializeError) =
      (some { m with serialize_errs := m.serialize_errs + 1 }, true) ∧
    with_inner (some m) (InnerResult.known GeyserError.senderLockError) =
      (some { m with sender_lock_errs := m.sender_lock_errs + 1 }, true) ∧
    with_inner (some m) (InnerResult.known GeyserError.connLockError) =
      (some { m with conn_lock_errs := m.conn_lock_errs + 1 }, true) ∧
    with_inner (some m) (InnerResult.known GeyserError.cacheLockError) =
      (some { m with cache_lock_errs := m.cache_lock_errs + 1 }, true) ∧
    with_inner (some m) InnerResult.untyped =
      (some { m with untyped_errs := m.untyped_errs + 1 }, false) ∧
    src_with_inner m2 SrcInnerResult.ok = some (m2, true) ∧
    src_with_inner m2 (SrcInnerResult.known (SrcGeyserError.tcpSend n)) =
      some ({ m2 with send_errs := m2.send_errs + n }, true) ∧
    src_with_inner m2 (SrcInnerResult.known SrcGeyserError.txSerializeError) =
      some ({ m2 with tx_serialize_errs := m2.tx_serialize_errs + 1 }, true) ∧
    src_with_inner m2 (SrcInnerResult.known SrcGeyserError.senderLockError) =
      some ({ m2 with sender_lock_errs := m2.sender_lock_errs + 1 }, true) ∧
    src_with_inner m2 (SrcInnerResult.known SrcGeyserError.connLockError) =
      some ({ m2 with conn_lock_errs := m2.conn_lock_errs + 1 }, true) ∧
    src_with_inner m2
        (SrcInnerResult.known (SrcGeyserError.tcpDisconnects n)) = none ∧
    src_with_inner m2 SrcInnerResult.untyped =
      some ({ m2 with untyped_errs := m2.untyped_errs + 1 }, false) :=
  ⟨rfl, rfl, rfl, rfl, rfl, rfl, rfl, rfl,
   rfl, rfl, rfl, rfl, rfl, rfl, rfl⟩

/-- C5: slot-cache coalescing.  After any sequence of `put`s applied to
the empty cache, the bucket drained by a confirmation flush of slot `s`
holds, for key `k`, exactly the value of the last put for `(s, k)` —
one record if `(s, k)` was ever put, zero if never; every bucket keeps
pairwise-distinct keys (at most one entry per (slot, key)); the flush
emits exactly the bucket's stored values and removes the slot. -/
theorem C5_slot_cache_coalescing (ps : List (Nat × HashKey × List Nat))
    (s : Nat) (k : HashKey) :
    entriesFor (applyPuts ps) s k =
      ((lastPut ps s k).map (fun v => [v])).getD [] ∧
    CacheKeysNodup (applyPuts ps) ∧
    (scaffold_update_slot_status (applyPuts ps) s SlotStatus.confirmed).1 =
      ((cacheGet (applyPuts ps) s).getD []).map (fun e => e.2) ∧
    cacheGet (scaffold_update_slot_status (applyPuts ps) s
      SlotStatus.confirmed).2 s = none := by
  have hinit : CacheKeysNodup ([] : SlotCache) := by
    intro s'
    simp [cacheGet]
  obtain ⟨hnd, hent⟩ := applyPuts_go ps [] hinit
  have hflush := scaffold_flush_confirmed (applyPuts ps) s
  refine ⟨?_, hnd, hflush.1, hflush.2⟩
  rw [applyPuts, hent s k]
  rfl

/-- C6 counterexample: for a non-Confirmed status the scaffold's
`update_slot_status` publishes nothing at all — no slot record is ever
serialized or published by this variant — refuting "for every slot-status
callback the handler serializes a slot record and publishes it". -/
theorem C6_slot_status_counterexample :
    scaffold_update_slot_status [(5, [(HashKey.account 1, [9])])] 5
      SlotStatus.processed = ([], [(5, [(HashKey.account 1, [9])])]) := by
  decide

/-- C6 (amended): the scaffold's `update_slot_status` publishes no slot
record; when and only when the status is Confirmed it flushes the slot's
cached records (publishing exactly the stored values and removing the
slot), returning unchanged otherwise.  The src variant serializes and
publishes one slot record for every status and never flushes (it has no
cache). -/
theorem C6_slot_status_behaviour (c : SlotCache) (slot : Nat)
    (parent : Option Nat) (status : SlotStatus) :
    (status ≠ SlotStatus.confirmed →
      scaffold_update_slot_status c slot status = ([], c)) ∧
    (status = SlotStatus.confirmed →
      (scaffold_update_slot_status c slot status).1 =
        ((cacheGet c slot).getD []).map (fun e => e.2) ∧
      cacheGet (scaffold_update_slot_status c slot status).2 slot = none) ∧
    src_update_slot_status slot parent status =
      [PubRecord.slotRecord slot parent status] := by
  refine ⟨?_, ?_, rfl⟩
  · intro h
    unfold scaffold_update_slot_status
    simp [h]
  · intro h
    subst h
    exact scaffold_flush_confirmed c slot

/-- C6 witness: on a concrete one-slot cache, status Rooted leaves the
cache untouched and publishes nothing, while Confirmed drains the slot. -/
theorem C6_slot_status_behaviour_witness :
    scaffold_update_slot_status [(5, [(HashKey.account 1, [9])])] 5
      SlotStatus.rooted = ([], [(5, [(HashKey.account 1, [9])])]) ∧
    ((scaffold_update_slot_status [(5, [(HashKey.account 1, [9])])] 5
        SlotStatus.confirmed).1 =
      ((cacheGet [(5, [(HashKey.account 1, [9])])] 5).getD []).map
        (fun e => e.2) ∧
     cacheGet (scaffold_update_slot_status [(5, [(HashKey.account 1, [9])])]
        5 SlotStatus.confirmed).2 5 = none) :=
  ⟨(C6_slot_status_behaviour [(5, [(HashKey.account 1, [9])])] 5 none
      SlotStatus.rooted).1 (by decide),
   (C6_slot_status_behaviour [(5, [(HashKey.account 1, [9])])] 5 none
      SlotStatus.confirmed).2.1 rfl⟩

/-- C10 witness: the concrete well-formed body `[1,0,0,0,42]` (one record
of declared length 1) parses without reaching the panic branch and is
consumed in full. -/
theorem C10_read_loop_safety_witness :
    WFBody [1, 0, 0, 0, 42] ∧
    ∃ rs, read_records [1, 0, 0, 0, 42] = some rs ∧
      framedSize rs = ([1, 0, 0, 0, 42] : List Nat).length := by
  have hwf : WFBody [1, 0, 0, 0, 42] := by
    refine WFBody.cons _ (by decide) (by decide) ?_
    have : (([1, 0, 0, 0, 42] : List Nat).drop 4).drop
        (leU32 (([1, 0, 0, 0, 42] : List Nat).take 4)) = [] := by decide
    rw [this]
    exact WFBody.nil
  exact ⟨hwf, C10_read_loop_safety [1, 0, 0, 0, 42] hwf⟩

end Geyser
